import Mathlib

/-!
Shallow embedding of the Speactive reactive-UI core: the observable store
(`remember`, src/lib/remember.ts), the `Component` base class
(src/lib/Component.ts) and the `delegate` transform (src/lib/delegate.ts).

JS `Map`s and plain objects are modelled as association lists in insertion
order (JS `Map.set` replaces the value of an existing key in place and
appends new keys at the end; plain-object assignment behaves the same on own
enumerable string keys).  Prototype-chain lookups, symbol-keyed properties
other than the two framework symbols, and accessor properties are not
modelled: all store data lives in plain writable-or-not data slots, which is
how the library is used (`remember(initialData)` wraps a plain object).
-/

namespace Speactive

/-- `m.get(k)` / first own property named `k` of an association list. -/
def lookupKey {κ α : Type} [DecidableEq κ] : List (κ × α) → κ → Option α
  | [], _ => none
  | (k', v) :: rest, k => if k' = k then some v else lookupKey rest k

/-- `m.set(k, v)` for a JS `Map` (and `o[k] = v` for a plain object): replace
the value of an existing key in place, otherwise append the new key. -/
def mapSet {κ α : Type} [DecidableEq κ] : List (κ × α) → κ → α → List (κ × α)
  | [], k, v => [(k, v)]
  | (k', v') :: rest, k, v =>
      if k' = k then (k, v) :: rest else (k', v') :: mapSet rest k v

/-- `m.delete(k)` for a JS `Map`: removes the entry if present, no-op (and no
error) otherwise. -/
def mapDelete {κ α : Type} [DecidableEq κ] (m : List (κ × α)) (k : κ) :
    List (κ × α) :=
  m.filter (fun kv => decide (kv.1 ≠ k))

/-- Values stored in a remembered object's data record (and passed to
updaters as the previous value). -/
inductive JSVal where
  | undefined : JSVal
  | num : Int → JSVal
  | str : String → JSVal
deriving DecidableEq, Repr

/-- One property of the proxied target object: its current value and its
`writable` flag (`Reflect.set` fails on a non-writable data property). -/
structure PropSlot where
  value : JSVal
  writable : Bool
deriving DecidableEq, Repr

/-- One element of a `RememberedArg`: the `'_#remember'` store reference
(identified by an opaque id) together with the component fields it declares,
each mapped to its dependency array (`string[]`) or to `undefined` (`none`).
The reserved `'_#remember'` key is kept apart from the field table because
the TypeScript types (`RememberedData<Fields>`) exclude it from the field
names. -/
structure Entry where
  store : Nat
  fields : List (String × Option (List String))
deriving DecidableEq, Repr

/-- JS exceptions the embedded code can raise. -/
inductive JSError where
  | typeError : JSError
deriving DecidableEq, Repr

/-- The values `?.includes(p)` gets applied to inside the `set` trap. -/
inductive DepVal where
  | undefined : DepVal
  | deps : List String → DepVal
  | entryObj : Entry → DepVal
deriving DecidableEq, Repr

/-- `x?.includes(p)`: optional chaining short-circuits on `undefined`;
`Array.prototype.includes` answers membership on a `string[]`; a plain entry
object has no `includes` method, so the call throws a `TypeError` (the `?.`
guard does not save a missing method on a non-nullish receiver). -/
def includesProp : DepVal → String → Except JSError Bool
  | .undefined, _ => .ok false
  | .deps ps, p => .ok (ps.contains p)
  | .entryObj _, _ => .error .typeError

/-- The inner loop of the `set` trap:

```
const fieldsToUpdate: string[] = [];
for (const field in subscriber[1]) {
  if (field === '_#remember') continue;
  if (subscriber[1][field]?.includes(p)) fieldsToUpdate.push(field);
}
```

`subscriber[1]` is the registered `RememberedArg`, an *array* of descriptor
entries, so `for...in` enumerates its index strings `"0", "1", ...` in
order; `i` tracks the index whose string form is the loop variable, and
`subscriber[1][field]` is the entry object at that index. -/
def fieldsToUpdateAux (p : String) :
    List Entry → Nat → List String → Except JSError (List String)
  | [], _, acc => .ok acc
  | e :: rest, i, acc =>
      if toString i = "_#remember" then fieldsToUpdateAux p rest (i + 1) acc
      else
        match includesProp (.entryObj e) p with
        | .error err => .error err
        | .ok true => fieldsToUpdateAux p rest (i + 1) (acc ++ [toString i])
        | .ok false => fieldsToUpdateAux p rest (i + 1) acc

/-- An updater invocation observed during a write: the subscribing
component's identity, the field name the updater is registered under, and
the argument passed (the previous value of the written property). -/
abbrev Call := Nat × String × JSVal

/-- One iteration of the outer subscriber loop: scan the subscriber's
registered value for fields to update, then
`subscriber[0].updaters.get(field)?.(oldValue)` for each collected field —
the call happens only when the component has an updater under that field
name.  `updFields` maps each component identity to the key set of its
`updaters` map. -/
def subscriberCalls (updFields : List (Nat × List String)) (old : JSVal)
    (p : String) (sub : Nat × List Entry) : Except JSError (List Call) :=
  match fieldsToUpdateAux p sub.2 0 [] with
  | .error err => .error err
  | .ok fs =>
      .ok (fs.filterMap (fun f =>
        if f ∈ (lookupKey updFields sub.1).getD [] then some (sub.1, f, old)
        else none))

/-- The full `for (const subscriber of subscribers)` loop.  Returns the
updater invocations that happened, in order, and the error that aborted the
loop, if any (calls made by earlier subscribers precede a later throw). -/
def notifyPass (updFields : List (Nat × List String)) (p : String)
    (old : JSVal) : List (Nat × List Entry) → List Call × Option JSError
  | [] => ([], none)
  | sub :: rest =>
      match subscriberCalls updFields old p sub with
      | .error err => ([], some err)
      | .ok cs =>
          let more := notifyPass updFields p old rest
          (cs ++ more.1, more.2)

/-- `Reflect.get(target, p, target)` on a plain data object. -/
def reflectGet (data : List (String × PropSlot)) (p : String) : JSVal :=
  ((lookupKey data p).map PropSlot.value).getD .undefined

/-- `Reflect.set(target, p, v, target)` on a plain extensible data object:
an absent property is created writable and the call succeeds; a writable
property is updated; a non-writable property is left unchanged and the call
reports failure (`false`). -/
def reflectSet : List (String × PropSlot) → String → JSVal →
    Bool × List (String × PropSlot)
  | [], p, v => (true, [(p, ⟨v, true⟩)])
  | (q, slot) :: rest, p, v =>
      if q = p then
        if slot.writable then (true, (p, ⟨v, slot.writable⟩) :: rest)
        else (false, (q, slot) :: rest)
      else
        ((reflectSet rest p v).1, (q, slot) :: (reflectSet rest p v).2)

/-- A remembered object: the proxied target data plus the `subscribers`
map (`Map<Component, RememberedArg>`, keyed by component identity). -/
structure Store where
  data : List (String × PropSlot)
  subscribers : List (Nat × List Entry)
deriving DecidableEq, Repr

/-- `remember(initialData)`: wraps the data with an empty subscriber map. -/
def rememberStore (initialData : List (String × PropSlot)) : Store :=
  ⟨initialData, []⟩

/-- The registration closure returned for the `rememberSymbol` property:
`subscribers.set(component, remembered)`. -/
def registerSubscriber (st : Store) (cid : Nat) (arg : List Entry) : Store :=
  { st with subscribers := mapSet st.subscribers cid arg }

/-- The deregistration closure returned for the `forgetSymbol` property:
`subscribers.delete(component)`. -/
def forgetSubscriber (st : Store) (cid : Nat) : Store :=
  { st with subscribers := mapDelete st.subscribers cid }

/-- Observable outcome of the `set` trap: either it returned normally
(with the boolean `Reflect.set` produced) or it threw, in both cases with
the updated store and the updater invocations that happened. -/
inductive WriteOutcome where
  | normal : Bool → Store → List Call → WriteOutcome
  | thrown : JSError → Store → List Call → WriteOutcome
deriving DecidableEq, Repr

/-- The proxy `set` trap of `remember`:

```
set(target, p, newValue) {
  const oldValue = Reflect.get(target, p, target);
  const returnValue = Reflect.set(target, p, newValue, target);
  for (const subscriber of subscribers) { ... }
  return returnValue;
}
```

The write happens first, the notification loop runs unconditionally
afterwards (whatever `returnValue` was), and `returnValue` is returned if
the loop completes. -/
def setTrap (st : Store) (updFields : List (Nat × List String)) (p : String)
    (v : JSVal) : WriteOutcome :=
  let old := reflectGet st.data p
  let write := reflectSet st.data p v
  let pass := notifyPass updFields p old st.subscribers
  match pass.2 with
  | some e => .thrown e { st with data := write.2 } pass.1
  | none => .normal write.1 { st with data := write.2 } pass.1

/-- The updater invocations a write outcome performed. -/
def callsOf : WriteOutcome → List Call
  | .normal _ _ calls => calls
  | .thrown _ _ calls => calls

/-- The store state a write outcome left behind. -/
def storeOf : WriteOutcome → Store
  | .normal _ st _ => st
  | .thrown _ st _ => st

/-! ## Component base class (src/lib/Component.ts) -/

/-- An updater closure built by one of the three factory methods, recording
the data the closure captured: the target element, plus the attribute /
style name where applicable, and the field whose data source it reads. -/
inductive Updater where
  | innerText : Nat → String → Updater
  | attr : Nat → String → String → Updater
  | cssStyle : Nat → String → String → Updater
deriving DecidableEq, Repr

/-- Calls the updater closures make into the render surface. -/
inductive RenderEffect where
  | textSet : Nat → JSVal → RenderEffect
  | attrSet : Nat → String → JSVal → RenderEffect
  | attrRemove : Nat → String → RenderEffect
  | styleSet : Nat → String → JSVal → RenderEffect
deriving DecidableEq, Repr

/-- The body shared by the three factory-built closures, evaluated against
the component's `dataSources` at invocation time (each data source is a
zero-argument function; `dataSources` maps a field name to the value its
function currently returns, `.undefined` included — a *missing* key means the
component has no data-source function for that field at all):

* every closure starts with `const dataSource = this.dataSources[fieldName];
  if (!dataSource) return;` — with no data source it performs no
  render-surface call and raises nothing;
* `innerText`: `element.innerText = dataSource() as string`;
* `attr`: sets the attribute when the data is neither `null` nor
  `undefined`, otherwise removes it;
* `cssStyle`: sets the style property when the data is neither `null` nor
  `undefined`, otherwise assigns the empty string. -/
def runUpdater (dataSources : List (String × JSVal)) :
    Updater → List RenderEffect
  | .innerText element fieldName =>
      match lookupKey dataSources fieldName with
      | none => []
      | some v => [.textSet element v]
  | .attr element attributeName fieldName =>
      match lookupKey dataSources fieldName with
      | none => []
      | some v =>
          if v = .undefined then [.attrRemove element attributeName]
          else [.attrSet element attributeName v]
  | .cssStyle element styleName fieldName =>
      match lookupKey dataSources fieldName with
      | none => []
      | some v =>
          if v = .undefined then [.styleSet element styleName (.str "")]
          else [.styleSet element styleName v]

/-- A `Component` instance: its identity (the `Map` key the stores use),
its root element, whether that element is still in the render tree, its
`dataSources` and `updaters` tables and the `RememberedArg` it was
constructed with. -/
structure Comp where
  id : Nat
  root : Nat
  rootAttached : Bool
  dataSources : List (String × JSVal)
  updaters : List (String × Updater)
  remembered : List Entry
deriving DecidableEq, Repr

/-- What one of the three binding methods returns to the caller: the updated
component, the updater closures invoked during the call (in order) and the
render-surface effects those invocations performed. -/
structure BindResult where
  comp : Comp
  invoked : List Updater
  effects : List RenderEffect
deriving DecidableEq, Repr

/-- `setInnerText(fieldName, element = this.root)`: builds the closure,
invokes it once (`updater()`), then `this.updaters.set(fieldName, updater)`. -/
def Comp.setInnerText (c : Comp) (fieldName : String)
    (element : Nat := c.root) : BindResult :=
  let updater := Updater.innerText element fieldName
  ⟨{ c with updaters := mapSet c.updaters fieldName updater },
   [updater], runUpdater c.dataSources updater⟩

/-- `setAttribute(attributeName, fieldName, element = this.root)`: builds
the closure, invokes it once, then registers it under `fieldName`. -/
def Comp.setAttribute (c : Comp) (attributeName : String) (fieldName : String)
    (element : Nat := c.root) : BindResult :=
  let updater := Updater.attr element attributeName fieldName
  ⟨{ c with updaters := mapSet c.updaters fieldName updater },
   [updater], runUpdater c.dataSources updater⟩

/-- `setCSSStyle(style, fieldName, element = this.root)`: builds the
closure, invokes it once, then registers it under `fieldName`. -/
def Comp.setCSSStyle (c : Comp) (styleName : String) (fieldName : String)
    (element : Nat := c.root) : BindResult :=
  let updater := Updater.cssStyle element styleName fieldName
  ⟨{ c with updaters := mapSet c.updaters fieldName updater },
   [updater], runUpdater c.dataSources updater⟩

/-- Apply a function to the store with the given identity in a world of
stores (an entry's `'_#remember'` member is the store object itself; the
world maps store identities to store states). -/
def mapUpdate (stores : List (Nat × Store)) (k : Nat) (f : Store → Store) :
    List (Nat × Store) :=
  match stores with
  | [] => []
  | kv :: rest =>
      (if kv.1 = k then (k, f kv.2) else kv) :: mapUpdate rest k f

/-- The registration pass of the `Component` constructor:
`for (const remembered of this.remembered)
   remembered['_#remember'][rememberSymbol](this, this.remembered);` —
the *entire* `RememberedArg` array is registered with each referenced
store. -/
def constructRegister (stores : List (Nat × Store)) (c : Comp) :
    List (Nat × Store) :=
  c.remembered.foldl
    (fun ss e => mapUpdate ss e.store
      (fun st => registerSubscriber st c.id c.remembered)) stores

/-- `Component.destroy()`:

```
this.root.remove();
this.updaters.clear();
Object.assign(this.dataSources, {});
for (const remembered of this.remembered)
  remembered['_#remember'][forgetSymbol](this);
```

`Object.assign(this.dataSources, {})` copies the empty object's (zero) own
enumerable properties onto `dataSources`, so the data-source table is left
exactly as it was. -/
def Comp.destroy (c : Comp) (stores : List (Nat × Store)) :
    Comp × List (Nat × Store) :=
  let c' : Comp := { c with rootAttached := false, updaters := [] }
  let stores' := c.remembered.foldl
    (fun ss e => mapUpdate ss e.store (fun st => forgetSubscriber st c.id))
    stores
  (c', stores')

/-! ## Delegation (src/lib/delegate.ts) -/

/-- One element of the `fields` argument of `delegate`. -/
structure Mapping where
  source : String
  target : String
deriving DecidableEq, Repr

/-- `field.source in remembered`: own-property existence, regardless of the
value (a key explicitly holding `undefined` still counts).  Only the
component-field keys are modelled; the reserved `'_#remember'` key is held
apart (the TypeScript `MatchingFields` type draws sources from the
component-field names) and the prototype chain is out of scope. -/
def entryHasKey (e : Entry) (f : String) : Bool :=
  e.fields.any (fun kv => kv.1 == f)

/-- `remembered[field.source]` as an expression: reading an absent key and
reading a key that holds `undefined` both yield `undefined` (`none`). -/
def jsRead (e : Entry) (f : String) : Option (List String) :=
  (lookupKey e.fields f).join

/-- The `.map` body of `delegate`: start from
`{ '_#remember': remembered['_#remember'] }` and then, for each mapping in
order, `newRemembered[field.target] = remembered[field.source]` — a later
assignment to the same target key overwrites an earlier one, and an absent
source assigns `undefined` under the target key. -/
def delegateEntry (remembered : Entry) (fields : List Mapping) : Entry :=
  { store := remembered.store,
    fields := fields.foldl
      (fun fs field => mapSet fs field.target (jsRead remembered field.source))
      [] }

/-- `delegate(rememberedArg, fields)`:

```
return rememberedArg
  .filter((remembered) => fields.some((field) => field.source in remembered))
  .map((remembered) => { ... });
```

`filter`/`map` build a new array; `rememberedArg` is never mutated. -/
def delegate (rememberedArg : List Entry) (fields : List Mapping) :
    List Entry :=
  (rememberedArg.filter
      (fun remembered => fields.any (fun field => entryHasKey remembered field.source))).map
    (fun remembered => delegateEntry remembered fields)

/-! ## Association-list lemmas -/

theorem lookupKey_mapSet_self {κ α : Type} [DecidableEq κ]
    (m : List (κ × α)) (k : κ) (v : α) :
    lookupKey (mapSet m k v) k = some v := by
  induction m with
  | nil => simp [mapSet, lookupKey]
  | cons kv rest ih =>
      obtain ⟨k', v'⟩ := kv
      by_cases hk : k' = k
      · simp [mapSet, lookupKey, hk]
      · simp [mapSet, lookupKey, hk, ih]

theorem lookupKey_mapSet_ne {κ α : Type} [DecidableEq κ]
    (m : List (κ × α)) (k : κ) (v : α) (t : κ) (h : t ≠ k) :
    lookupKey (mapSet m k v) t = lookupKey m t := by
  have hk : k ≠ t := Ne.symm h
  induction m with
  | nil => simp [mapSet, lookupKey, hk]
  | cons kv rest ih =>
      obtain ⟨k', v'⟩ := kv
      by_cases hk' : k' = k
      · subst hk'
        simp [mapSet, lookupKey, hk]
      · simp only [mapSet, if_neg hk', lookupKey]
        by_cases ht : k' = t
        · simp [ht]
        · simp [ht, ih]

theorem keys_mapSet {κ α : Type} [DecidableEq κ]
    (m : List (κ × α)) (k : κ) (v : α) :
    (mapSet m k v).map Prod.fst =
      if k ∈ m.map Prod.fst then m.map Prod.fst
      else m.map Prod.fst ++ [k] := by
  induction m with
  | nil => simp [mapSet]
  | cons kv rest ih =>
      obtain ⟨k', v'⟩ := kv
      by_cases hk' : k' = k
      · subst hk'
        simp [mapSet]
      · have hne : (k : κ) ≠ k' := Ne.symm hk'
        simp only [mapSet, if_neg hk', List.map_cons, ih]
        by_cases hmem : k ∈ rest.map Prod.fst
        · simp [hmem, hne]
        · simp [hmem, hne]

theorem mem_keys_mapSet {κ α : Type} [DecidableEq κ]
    (m : List (κ × α)) (k : κ) (v : α) (t : κ) :
    t ∈ (mapSet m k v).map Prod.fst → t ∈ m.map Prod.fst ∨ t = k := by
  rw [keys_mapSet]
  by_cases hmem : k ∈ m.map Prod.fst
  · rw [if_pos hmem]
    exact Or.inl
  · rw [if_neg hmem]
    intro h
    rcases List.mem_append.mp h with h' | h'
    · exact Or.inl h'
    · exact Or.inr (List.mem_singleton.mp h')

theorem nodup_keys_mapSet {κ α : Type} [DecidableEq κ]
    (m : List (κ × α)) (k : κ) (v : α) (h : (m.map Prod.fst).Nodup) :
    ((mapSet m k v).map Prod.fst).Nodup := by
  rw [keys_mapSet]
  by_cases hmem : k ∈ m.map Prod.fst
  · rw [if_pos hmem]
    exact h
  · rw [if_neg hmem]
    simp [List.nodup_append, h, hmem]

theorem filter_eq_nil_of_key_not_mem {κ α : Type} [DecidableEq κ]
    (m : List (κ × α)) (k : κ) (h : k ∉ m.map Prod.fst) :
    m.filter (fun kv => decide (kv.1 = k)) = [] := by
  induction m with
  | nil => rfl
  | cons kv rest ih =>
      obtain ⟨k', v'⟩ := kv
      have hk : ¬(k' = k) := fun hkk => h (by simp [hkk])
      have hr : k ∉ rest.map Prod.fst := fun hm => h (by simp [hm])
      simp [List.filter_cons, hk, ih hr]

theorem filter_mapSet_eq {κ α : Type} [DecidableEq κ]
    (m : List (κ × α)) (k : κ) (v : α) (h : (m.map Prod.fst).Nodup) :
    (mapSet m k v).filter (fun kv => decide (kv.1 = k)) = [(k, v)] := by
  induction m with
  | nil => simp [mapSet]
  | cons kv rest ih =>
      obtain ⟨k', v'⟩ := kv
      rw [List.map_cons] at h
      obtain ⟨hhead, htail⟩ := List.nodup_cons.mp h
      by_cases hk' : k' = k
      · subst hk'
        simp [mapSet, List.filter_cons,
          filter_eq_nil_of_key_not_mem rest k' hhead]
      · simp [mapSet, hk', List.filter_cons, ih htail]

theorem mapDelete_of_not_mem {κ α : Type} [DecidableEq κ]
    (m : List (κ × α)) (k : κ) (h : k ∉ m.map Prod.fst) :
    mapDelete m k = m := by
  refine List.filter_eq_self.mpr ?_
  intro kv hmem
  simp only [decide_eq_true_eq]
  exact fun hkk => h (List.mem_map.mpr ⟨kv, hmem, hkk⟩)

theorem not_mem_keys_mapDelete {κ α : Type} [DecidableEq κ]
    (m : List (κ × α)) (k : κ) : k ∉ (mapDelete m k).map Prod.fst := by
  intro h
  rcases List.mem_map.mp h with ⟨kv, hmem, hfst⟩
  have := (List.mem_filter.mp hmem).2
  simp only [decide_eq_true_eq] at this
  exact this hfst

/-! ## Notification-pass lemmas

The field scan of the `set` trap iterates the index strings of the
registered descriptor *array*: on a non-empty array the very first
iteration calls `.includes` on an entry object and throws, and on an empty
array nothing is collected.  Hence the scan either throws or returns its
accumulator unchanged, and no updater call ever happens. -/

theorem fieldsToUpdateAux_eq (p : String) (arg : List Entry) :
    ∀ (i : Nat) (acc : List String),
      fieldsToUpdateAux p arg i acc = .ok acc ∨
      fieldsToUpdateAux p arg i acc = .error .typeError := by
  induction arg with
  | nil =>
      intro i acc
      exact Or.inl rfl
  | cons e rest ih =>
      intro i acc
      by_cases h : toString i = "_#remember"
      · rw [fieldsToUpdateAux, if_pos h]
        exact ih (i + 1) acc
      · rw [fieldsToUpdateAux, if_neg h]
        exact Or.inr rfl

theorem subscriberCalls_eq (updFields : List (Nat × List String)) (old : JSVal)
    (p : String) (sub : Nat × List Entry) :
    subscriberCalls updFields old p sub = .ok [] ∨
    subscriberCalls updFields old p sub = .error .typeError := by
  rcases fieldsToUpdateAux_eq p sub.2 0 [] with h | h
  · left
    simp [subscriberCalls, h]
  · right
    simp [subscriberCalls, h]

theorem subscriberCalls_cons (updFields : List (Nat × List String)) (old : JSVal)
    (p : String) (cid : Nat) (e : Entry) (rest : List Entry) :
    subscriberCalls updFields old p (cid, e :: rest) = .error .typeError := by
  have h : ¬(toString (0 : Nat) = "_#remember") := by decide
  rw [subscriberCalls]
  rw [fieldsToUpdateAux, if_neg h]
  rfl

theorem notifyPass_calls_nil (updFields : List (Nat × List String)) (p : String)
    (old : JSVal) (subs : List (Nat × List Entry)) :
    (notifyPass updFields p old subs).1 = [] := by
  induction subs with
  | nil => rfl
  | cons sub rest ih =>
      rcases subscriberCalls_eq updFields old p sub with h | h
      · simp [notifyPass, h, ih]
      · simp [notifyPass, h]

theorem callsOf_setTrap (st : Store) (updFields : List (Nat × List String))
    (p : String) (v : JSVal) :
    callsOf (setTrap st updFields p v) = [] := by
  rw [setTrap]
  split
  · simp [callsOf, notifyPass_calls_nil]
  · simp [callsOf, notifyPass_calls_nil]

theorem notifyPass_all_empty (updFields : List (Nat × List String)) (p : String)
    (old : JSVal) (subs : List (Nat × List Entry))
    (h : subs.all (fun s => s.2.isEmpty) = true) :
    notifyPass updFields p old subs = ([], none) := by
  induction subs with
  | nil => rfl
  | cons sub rest ih =>
      rw [List.all_cons, Bool.and_eq_true] at h
      obtain ⟨h1, h2⟩ := h
      obtain ⟨cid, arg⟩ := sub
      have harg : arg = [] := by
        cases arg with
        | nil => rfl
        | cons e tail => simp at h1
      subst harg
      have hcall : subscriberCalls updFields old p (cid, []) = .ok [] := by
        simp [subscriberCalls, fieldsToUpdateAux]
      simp [notifyPass, hcall, ih h2]

theorem notifyPass_any_nonempty (updFields : List (Nat × List String))
    (p : String) (old : JSVal) (subs : List (Nat × List Entry))
    (h : subs.any (fun s => !s.2.isEmpty) = true) :
    (notifyPass updFields p old subs).2 = some .typeError := by
  induction subs with
  | nil => cases h
  | cons sub rest ih =>
      obtain ⟨cid, arg⟩ := sub
      cases arg with
      | nil =>
          rw [List.any_cons] at h
          have h2 : rest.any (fun s => !s.2.isEmpty) = true := by
            simpa using h
          have hcall : subscriberCalls updFields old p (cid, []) = .ok [] := by
            simp [subscriberCalls, fieldsToUpdateAux]
          simp [notifyPass, hcall, ih h2]
      | cons e tail =>
          simp [notifyPass, subscriberCalls_cons]

theorem reflectSet_nonwritable (data : List (String × PropSlot)) (p : String)
    (v : JSVal) (slot : PropSlot) (hp : lookupKey data p = some slot)
    (hw : slot.writable = false) :
    reflectSet data p v = (false, data) := by
  induction data with
  | nil => cases hp
  | cons qs rest ih =>
      obtain ⟨q, s⟩ := qs
      by_cases hq : q = p
      · have hs : s = slot := by
          simpa [lookupKey, hq] using hp
        subst hs
        simp [reflectSet, hq, hw]
      · have hp' : lookupKey rest p = some slot := by
          simpa [lookupKey, hq] using hp
        simp [reflectSet, hq, ih hp']

/-! ## Delegation lemmas -/

theorem lookupKey_foldl_mapSet_of_notin {α : Type} (g : Mapping → α)
    (t : String) (M : List Mapping) (hM : ∀ f ∈ M, f.target ≠ t) :
    ∀ (init : List (String × α)),
      lookupKey (M.foldl (fun fs f => mapSet fs f.target (g f)) init) t
        = lookupKey init t := by
  induction M with
  | nil => intro init; rfl
  | cons f M ih =>
      intro init
      rw [List.foldl_cons]
      rw [ih (fun f' hf' => hM f' (List.mem_cons_of_mem _ hf')) _]
      exact lookupKey_mapSet_ne init f.target (g f) t
        (Ne.symm (hM f (List.mem_cons_self _ _)))

theorem lookupKey_foldl_mapSet_mem {α : Type} (g : Mapping → α)
    (M : List Mapping) :
    ∀ (f : Mapping), f ∈ M → (M.map Mapping.target).Nodup →
    ∀ (init : List (String × α)),
      lookupKey (M.foldl (fun fs m => mapSet fs m.target (g m)) init) f.target
        = some (g f) := by
  induction M with
  | nil => intro f hf; cases hf
  | cons m M ih =>
      intro f hf hM init
      rw [List.map_cons] at hM
      obtain ⟨hhead, htail⟩ := List.nodup_cons.mp hM
      rw [List.foldl_cons]
      rcases List.mem_cons.mp hf with rfl | hf'
      · have hnotin : ∀ x ∈ M, x.target ≠ f.target := by
          intro x hx hEq
          exact hhead (hEq ▸ List.mem_map_of_mem Mapping.target hx)
        rw [lookupKey_foldl_mapSet_of_notin g f.target M hnotin _]
        exact lookupKey_mapSet_self init f.target (g f)
      · exact ih f hf' htail _

theorem jsRead_delegateEntry (e : Entry) (M : List Mapping) (f : Mapping)
    (hf : f ∈ M) (hM : (M.map Mapping.target).Nodup) :
    jsRead (delegateEntry e M) f.target = jsRead e f.source := by
  show (lookupKey (delegateEntry e M).fields f.target).join = jsRead e f.source
  rw [show (delegateEntry e M).fields
      = M.foldl (fun fs m => mapSet fs m.target
          ((fun m => jsRead e m.source) m)) [] from rfl]
  rw [lookupKey_foldl_mapSet_mem (fun m => jsRead e m.source) M f hf hM []]
  rfl

theorem zip_map_all {α β : Type} (tx : α → β) (P : α × β → Bool) :
    ∀ (l : List α), ((l.zip (l.map tx)).all P) = l.all (fun e => P (e, tx e)) := by
  intro l
  induction l with
  | nil => rfl
  | cons e l ih =>
      rw [List.map_cons, List.zip_cons_cons, List.all_cons, List.all_cons, ih]

/-! ## World / destroy lemmas -/

theorem lookupKey_mapUpdate_self (ss : List (Nat × Store)) (k : Nat)
    (f : Store → Store) :
    lookupKey (mapUpdate ss k f) k = (lookupKey ss k).map f := by
  induction ss with
  | nil => rfl
  | cons kv rest ih =>
      obtain ⟨k', st⟩ := kv
      by_cases hk' : k' = k
      · rw [mapUpdate, if_pos hk']
        simp [lookupKey, hk']
      · rw [mapUpdate, if_neg hk']
        simp [lookupKey, hk', ih]

theorem lookupKey_mapUpdate_ne (ss : List (Nat × Store)) (k : Nat)
    (f : Store → Store) (t : Nat) (h : t ≠ k) :
    lookupKey (mapUpdate ss k f) t = lookupKey ss t := by
  have hk : k ≠ t := Ne.symm h
  induction ss with
  | nil => rfl
  | cons kv rest ih =>
      obtain ⟨k', st⟩ := kv
      by_cases hk' : k' = k
      · rw [mapUpdate, if_pos hk']
        simp [lookupKey, hk', hk, ih]
      · rw [mapUpdate, if_neg hk']
        by_cases ht : k' = t
        · simp [lookupKey, ht]
        · simp [lookupKey, ht, ih]

theorem destroy_foldl_untouched (cid sid : Nat) :
    ∀ (L : List Entry), L.all (fun e => !(e.store == sid)) = true →
    ∀ (ss : List (Nat × Store)),
      lookupKey (L.foldl (fun ss e =>
        mapUpdate ss e.store (fun st => forgetSubscriber st cid)) ss) sid
        = lookupKey ss sid := by
  intro L
  induction L with
  | nil => intro _ ss; rfl
  | cons e L ih =>
      intro hL ss
      rw [List.all_cons, Bool.and_eq_true] at hL
      obtain ⟨h1, h2⟩ := hL
      rw [List.foldl_cons, ih h2]
      apply lookupKey_mapUpdate_ne
      intro hEq
      rw [hEq] at h1
      simp at h1

theorem destroy_lookup_deregistered (cid sid : Nat) :
    ∀ (L : List Entry), L.any (fun e => e.store == sid) = true →
    ∀ (ss : List (Nat × Store)) (st' : Store),
      lookupKey (L.foldl (fun ss e =>
        mapUpdate ss e.store (fun st => forgetSubscriber st cid)) ss) sid
        = some st' →
      cid ∉ st'.subscribers.map Prod.fst := by
  intro L
  induction L with
  | nil => intro h; cases h
  | cons e L ih =>
      intro hany ss st' hlook
      rw [List.foldl_cons] at hlook
      by_cases hrest : L.any (fun x => x.store == sid) = true
      · exact ih hrest _ st' hlook
      · have hor : e.store = sid ∨ ∃ x ∈ L, x.store = sid := by
          simpa using hany
        have hnone : ¬∃ x ∈ L, x.store = sid := by
          rintro ⟨x, hx, hxs⟩
          exact hrest (List.any_eq_true.mpr ⟨x, hx, by simpa using hxs⟩)
        have he' : e.store = sid := hor.resolve_right hnone
        have hL : L.all (fun x => !(x.store == sid)) = true := by
          rw [List.all_eq_true]
          intro x hx
          have hxne : ¬((x.store == sid) = true) :=
            fun hxs => hrest (List.any_eq_true.mpr ⟨x, hx, hxs⟩)
          simpa using hxne
        rw [destroy_foldl_untouched cid sid L hL] at hlook
        rw [he', lookupKey_mapUpdate_self] at hlook
        rcases Option.map_eq_some'.mp hlook with ⟨st0, _, hst⟩
        rw [← hst]
        exact not_mem_keys_mapDelete st0.subscribers cid

/-! ## Claim theorems -/

/-- Claim C1 (code-bug evidence): on the spec's Scenario A — a store
created by `remember({value: 0})`, component `0` subscribed with the
descriptor `[{'_#remember': store, label: ['value']}]` and an updater
registered for `label` — the claim says the write `store.value = 5`
invokes the `label` updater exactly once with the previous value `0`.
Instead the write throws a `TypeError` (the notification loop runs
`for...in` over the descriptor *array*, so it reaches the entry object
at index `"0"` and calls the non-existent `.includes` on it) and invokes
no updater at all; the write itself has already landed. -/
theorem remember_write_throws_instead_of_notifying :
    setTrap
      (registerSubscriber (rememberStore [("value", ⟨.num 0, true⟩)]) 0
        [⟨0, [("label", some ["value"])]⟩])
      [(0, ["label"])] "value" (.num 5)
    = .thrown .typeError
        ⟨[("value", ⟨.num 5, true⟩)],
         [(0, [⟨0, [("label", some ["value"])]⟩])]⟩
        [] := by
  rfl

/-- Claim C2 counterexample: with one subscriber holding a non-empty
descriptor array and the property `value` non-writable, the failed write
`store.value = 1` does not behave as the claim states (plain-write failure
result, no notification pass): the pass runs anyway and throws a
`TypeError`, which is a different outcome from returning the plain
write's `false`. -/
theorem failed_write_still_runs_notification_pass :
    setTrap
      ⟨[("value", ⟨.num 0, false⟩)],
       [(0, [⟨0, [("label", some ["value"])]⟩])]⟩
      [(0, ["label"])] "value" (.num 1)
    = .thrown .typeError
        ⟨[("value", ⟨.num 0, false⟩)],
         [(0, [⟨0, [("label", some ["value"])]⟩])]⟩
        []
    ∧ WriteOutcome.thrown .typeError
        ⟨[("value", ⟨.num 0, false⟩)],
         [(0, [⟨0, [("label", some ["value"])]⟩])]⟩ []
      ≠ WriteOutcome.normal false
        ⟨[("value", ⟨.num 0, false⟩)],
         [(0, [⟨0, [("label", some ["value"])]⟩])]⟩ [] := by
  exact ⟨rfl, by decide⟩

/-- Claim C2 (amended): when a write to a non-writable store property
fails, the data is left unchanged and no subscriber updater is invoked,
but the notification pass runs regardless of the failure: if every
registered descriptor array is empty the trap returns the plain write's
failure result unchanged, and if any registered descriptor array is
non-empty the pass throws its `TypeError` instead. -/
theorem failed_write_behavior (st : Store)
    (updFields : List (Nat × List String)) (p : String) (v : JSVal)
    (slot : PropSlot) (hp : lookupKey st.data p = some slot)
    (hw : slot.writable = false) :
    (storeOf (setTrap st updFields p v)).data = st.data
    ∧ callsOf (setTrap st updFields p v) = []
    ∧ (st.subscribers.all (fun s => s.2.isEmpty) = true →
        setTrap st updFields p v = .normal false st [])
    ∧ (st.subscribers.any (fun s => !s.2.isEmpty) = true →
        setTrap st updFields p v = .thrown .typeError st []) := by
  have hset := reflectSet_nonwritable st.data p v slot hp hw
  refine ⟨?_, callsOf_setTrap st updFields p v, ?_, ?_⟩
  · rw [setTrap]
    split
    · simp [storeOf, hset]
    · simp [storeOf, hset]
  · intro hall
    have hpass := notifyPass_all_empty updFields p (reflectGet st.data p)
      st.subscribers hall
    rw [setTrap]
    simp [hset, hpass]
  · intro hany
    have h2 := notifyPass_any_nonempty updFields p (reflectGet st.data p)
      st.subscribers hany
    have h1 := notifyPass_calls_nil updFields p (reflectGet st.data p)
      st.subscribers
    rw [setTrap]
    simp [hset, h2, h1]

/-- Witness for the amended C2 theorem at a concrete store with a
non-writable `value` property and no subscribers. -/
theorem failed_write_behavior_witness :
    (storeOf (setTrap ⟨[("value", ⟨.num 0, false⟩)], []⟩ [] "value"
        (.num 1))).data = [("value", ⟨.num 0, false⟩)]
    ∧ callsOf (setTrap ⟨[("value", ⟨.num 0, false⟩)], []⟩ [] "value"
        (.num 1)) = []
    ∧ (([] : List (Nat × List Entry)).all (fun s => s.2.isEmpty) = true →
        setTrap ⟨[("value", ⟨.num 0, false⟩)], []⟩ [] "value" (.num 1)
          = .normal false ⟨[("value", ⟨.num 0, false⟩)], []⟩ [])
    ∧ (([] : List (Nat × List Entry)).any (fun s => !s.2.isEmpty) = true →
        setTrap ⟨[("value", ⟨.num 0, false⟩)], []⟩ [] "value" (.num 1)
          = .thrown .typeError ⟨[("value", ⟨.num 0, false⟩)], []⟩ []) :=
  failed_write_behavior ⟨[("value", ⟨.num 0, false⟩)], []⟩ [] "value"
    (.num 1) ⟨.num 0, false⟩ (by decide) (by decide)

/-- Claim C3 (code-bug evidence): destroying a component removes its root
node, clears the updater mapping and deregisters it from the referenced
store, but the data-source mapping is NOT left empty —
`Object.assign(this.dataSources, {})` copies the empty object's zero own
properties onto it and therefore changes nothing, so the `text` data
source survives `destroy()`. -/
theorem destroy_leaves_dataSources_populated :
    (Comp.destroy
        ⟨0, 7, true, [("text", .str "hi")],
         [("text", .innerText 7 "text")],
         [⟨5, [("label", some ["value"])]⟩]⟩
        [(5, ⟨[("value", ⟨.num 0, true⟩)],
              [(0, [⟨5, [("label", some ["value"])]⟩])]⟩)]).1
      = ⟨0, 7, false, [("text", .str "hi")], [],
         [⟨5, [("label", some ["value"])]⟩]⟩
    ∧ (Comp.destroy
        ⟨0, 7, true, [("text", .str "hi")],
         [("text", .innerText 7 "text")],
         [⟨5, [("label", some ["value"])]⟩]⟩
        [(5, ⟨[("value", ⟨.num 0, true⟩)],
              [(0, [⟨5, [("label", some ["value"])]⟩])]⟩)]).2
      = [(5, ⟨[("value", ⟨.num 0, true⟩)], []⟩)]
    ∧ ([("text", JSVal.str "hi")] : List (String × JSVal)) ≠ [] := by
  refine ⟨rfl, rfl, by decide⟩

/-- Claim C5: writing property `p` on a store never invokes the updater
registered for a field `f` whose dependency set does not contain `p`,
even when `f` belongs to a component subscribed to that store.  (In this
code the guarantee holds degenerately: a write never invokes any updater
at all — see the C1 evidence.) -/
theorem write_does_not_invoke_nondependent_updaters
    (st : Store) (updFields : List (Nat × List String)) (p : String)
    (v : JSVal) (cid : Nat) (arg : List Entry) (f : String) (old : JSVal)
    (hsub : lookupKey st.subscribers cid = some arg)
    (hdep : arg.all (fun e => !(((jsRead e f).getD []).contains p)) = true) :
    (cid, f, old) ∉ callsOf (setTrap st updFields p v) := by
  rw [callsOf_setTrap]
  exact List.not_mem_nil _

/-- Witness for C5 at a concrete subscribed component whose field `other`
depends only on the property `misc`: writing `value` does not call it. -/
theorem write_does_not_invoke_nondependent_updaters_witness :
    ((0 : Nat), "other", JSVal.num 0) ∉ callsOf (setTrap
      ⟨[("value", ⟨.num 0, true⟩)],
       [(0, [⟨0, [("label", some ["value"]), ("other", some ["misc"])]⟩])]⟩
      [(0, ["label", "other"])] "value" (.num 5)) :=
  write_does_not_invoke_nondependent_updaters
    ⟨[("value", ⟨.num 0, true⟩)],
     [(0, [⟨0, [("label", some ["value"]), ("other", some ["misc"])]⟩])]⟩
    [(0, ["label", "other"])] "value" (.num 5) 0
    [⟨0, [("label", some ["value"]), ("other", some ["misc"])]⟩]
    "other" (.num 0) (by decide) (by decide)

/-- Claim C4 counterexample: with two mappings sharing the target name
`x` (`a → x` and `b → x`) on an entry declaring both `a: ["p"]` and
`b: ["q"]`, the later assignment overwrites the earlier one, so `a`'s
dependency set `["p"]` does not appear under `x` — the result holds only
`["q"]` there, refuting the claim's "each mapped source field's dependency
set appearing verbatim under the corresponding target field name" for
arbitrary mapping lists. -/
theorem delegate_duplicate_target_loses_dependency :
    delegate [⟨0, [("a", some ["p"]), ("b", some ["q"])]⟩]
        [⟨"a", "x"⟩, ⟨"b", "x"⟩]
      = [⟨0, [("x", some ["q"])]⟩]
    ∧ jsRead ⟨0, [("x", some ["q"])]⟩ "x"
        ≠ jsRead ⟨0, [("a", some ["p"]), ("b", some ["q"])]⟩ "a" := by
  exact ⟨rfl, by decide⟩

/-- Claim C4 (amended): for a mapping list whose target names are pairwise
distinct, `delegate` keeps exactly the entries of the source descriptor
that declare at least one mapped source field (one output entry per kept
entry, in order; all other entries are absent), and each output entry
carries the same store reference with, for every mapping whose source
field the kept entry declares, the source field's dependency value
readable verbatim under the target name.  (The embedding is a pure
function, so the source descriptor is never mutated.) -/
theorem delegate_correct (D : List Entry) (M : List Mapping)
    (hM : (M.map Mapping.target).Nodup) :
    (delegate D M).length
      = (D.filter (fun e => M.any (fun f => entryHasKey e f.source))).length
    ∧ ((D.filter (fun e => M.any (fun f => entryHasKey e f.source))).zip
        (delegate D M)).all
        (fun ee => (ee.2.store == ee.1.store)
          && M.all (fun f => !(entryHasKey ee.1 f.source)
              || (jsRead ee.2 f.target == jsRead ee.1 f.source))) = true := by
  constructor
  · rw [delegate, List.length_map]
  · rw [delegate, zip_map_all, List.all_eq_true]
    intro e he
    rw [Bool.and_eq_true]
    constructor
    · simp [delegateEntry]
    · rw [List.all_eq_true]
      intro f hf
      by_cases hkey : entryHasKey e f.source = true
      · simp [hkey, jsRead_delegateEntry e M f hf hM]
      · rw [Bool.not_eq_true] at hkey
        simp [hkey]

/-- Witness for the amended C4 theorem on a two-entry descriptor where
only the first entry declares the mapped source field `a`. -/
theorem delegate_correct_witness :
    (delegate [⟨0, [("a", some ["value"])]⟩, ⟨1, [("c", some ["r"])]⟩]
        [⟨"a", "x"⟩]).length
      = (([⟨0, [("a", some ["value"])]⟩, ⟨1, [("c", some ["r"])]⟩] :
          List Entry).filter
            (fun e => [(⟨"a", "x"⟩ : Mapping)].any
              (fun f => entryHasKey e f.source))).length
    ∧ ((([⟨0, [("a", some ["value"])]⟩, ⟨1, [("c", some ["r"])]⟩] :
          List Entry).filter
            (fun e => [(⟨"a", "x"⟩ : Mapping)].any
              (fun f => entryHasKey e f.source))).zip
        (delegate [⟨0, [("a", some ["value"])]⟩, ⟨1, [("c", some ["r"])]⟩]
          [⟨"a", "x"⟩])).all
        (fun ee => (ee.2.store == ee.1.store)
          && [(⟨"a", "x"⟩ : Mapping)].all
              (fun f => !(entryHasKey ee.1 f.source)
                || (jsRead ee.2 f.target == jsRead ee.1 f.source))) = true :=
  delegate_correct [⟨0, [("a", some ["value"])]⟩, ⟨1, [("c", some ["r"])]⟩]
    [⟨"a", "x"⟩] (by decide)

/-- Claim C6: a store's subscriber registry holds at most one descriptor
entry per component identity — registering the same component a second
time replaces the previous descriptor instead of accumulating, so after
two registrations only the second descriptor is held for the component,
in a single registry entry, and the registry keys stay duplicate-free. -/
theorem register_replaces_previous_descriptor (st : Store) (cid : Nat)
    (a1 a2 : List Entry)
    (h : (st.subscribers.map Prod.fst).Nodup) :
    lookupKey (registerSubscriber (registerSubscriber st cid a1) cid
        a2).subscribers cid = some a2
    ∧ (registerSubscriber (registerSubscriber st cid a1) cid
        a2).subscribers.filter (fun kv => decide (kv.1 = cid)) = [(cid, a2)]
    ∧ ((registerSubscriber (registerSubscriber st cid a1) cid
        a2).subscribers.map Prod.fst).Nodup := by
  have h1 : ((mapSet st.subscribers cid a1).map Prod.fst).Nodup :=
    nodup_keys_mapSet st.subscribers cid a1 h
  refine ⟨?_, ?_, ?_⟩
  · exact lookupKey_mapSet_self (mapSet st.subscribers cid a1) cid a2
  · exact filter_mapSet_eq (mapSet st.subscribers cid a1) cid a2 h1
  · exact nodup_keys_mapSet (mapSet st.subscribers cid a1) cid a2 h1

/-- Witness for C6 on a freshly remembered store, registering component 0
with two different descriptors in a row. -/
theorem register_replaces_previous_descriptor_witness :
    lookupKey (registerSubscriber (registerSubscriber
        (rememberStore [("value", ⟨.num 0, true⟩)]) 0
        [⟨0, [("label", some ["value"])]⟩]) 0
        [⟨0, [("label", some ["other"])]⟩]).subscribers 0
      = some [⟨0, [("label", some ["other"])]⟩]
    ∧ (registerSubscriber (registerSubscriber
        (rememberStore [("value", ⟨.num 0, true⟩)]) 0
        [⟨0, [("label", some ["value"])]⟩]) 0
        [⟨0, [("label", some ["other"])]⟩]).subscribers.filter
          (fun kv => decide (kv.1 = 0))
      = [(0, [⟨0, [("label", some ["other"])]⟩])]
    ∧ ((registerSubscriber (registerSubscriber
        (rememberStore [("value", ⟨.num 0, true⟩)]) 0
        [⟨0, [("label", some ["value"])]⟩]) 0
        [⟨0, [("label", some ["other"])]⟩]).subscribers.map
          Prod.fst).Nodup :=
  register_replaces_previous_descriptor
    (rememberStore [("value", ⟨.num 0, true⟩)]) 0
    [⟨0, [("label", some ["value"])]⟩]
    [⟨0, [("label", some ["other"])]⟩] (by decide)

/-- Claim C7: after `destroy()`, the component is removed from the
subscriber registry of every store its descriptor referenced, and a
subsequent write to such a store never invokes any of that component's
updaters; deregistering a component that is not currently registered is a
no-op (the registry is unchanged and nothing is raised). -/
theorem destroy_deregisters_and_silences (c : Comp)
    (stores : List (Nat × Store)) (sid : Nat) (st' : Store)
    (updFields : List (Nat × List String)) (p : String) (v : JSVal)
    (f : String) (old : JSVal) (stx : Store) (cidx : Nat)
    (href : c.remembered.any (fun e => e.store == sid) = true)
    (hlook : lookupKey (Comp.destroy c stores).2 sid = some st')
    (hcid : cidx ∉ stx.subscribers.map Prod.fst) :
    c.id ∉ st'.subscribers.map Prod.fst
    ∧ (c.id, f, old) ∉ callsOf (setTrap st' updFields p v)
    ∧ forgetSubscriber stx cidx = stx := by
  refine ⟨?_, ?_, ?_⟩
  · exact destroy_lookup_deregistered c.id sid c.remembered href stores
      st' hlook
  · rw [callsOf_setTrap]
    exact List.not_mem_nil _
  · show { stx with subscribers := mapDelete stx.subscribers cidx } = stx
    rw [mapDelete_of_not_mem stx.subscribers cidx hcid]

/-- Witness for C7: component 0, whose descriptor references store 5, is
destroyed; store 5's registry no longer holds it, a write to store 5
calls none of its updaters, and deleting the unregistered component 3
from the resulting store changes nothing. -/
theorem destroy_deregisters_and_silences_witness :
    (0 : Nat) ∉ ((Store.mk [("value", ⟨.num 0, true⟩)]
        []).subscribers.map Prod.fst)
    ∧ ((0 : Nat), "label", JSVal.num 0) ∉ callsOf (setTrap
        (Store.mk [("value", ⟨.num 0, true⟩)] []) [] "value" (.num 9))
    ∧ forgetSubscriber (Store.mk [("value", ⟨.num 0, true⟩)] []) 3
        = Store.mk [("value", ⟨.num 0, true⟩)] [] :=
  destroy_deregisters_and_silences
    ⟨0, 7, true, [], [("label", .innerText 7 "label")],
     [⟨5, [("label", some ["value"])]⟩]⟩
    [(5, ⟨[("value", ⟨.num 0, true⟩)],
          [(0, [⟨5, [("label", some ["value"])]⟩])]⟩)]
    5 (Store.mk [("value", ⟨.num 0, true⟩)] []) [] "value" (.num 9)
    "label" (.num 0) (Store.mk [("value", ⟨.num 0, true⟩)] []) 3
    (by decide) (by decide) (by decide)

/-- Claim C8: each of `setInnerText`, `setAttribute` and `setCSSStyle`
registers its updater closure under the field name — inserting or
overwriting that field's mapping while leaving every other field's
mapping untouched — and invokes the closure exactly once, synchronously,
during the call itself, hence before any subsequent store write. -/
theorem binding_methods_invoke_once_and_register (c : Comp)
    (fieldName attributeName styleName : String) (element : Nat)
    (g : String) (hg : g ≠ fieldName) :
    (c.setInnerText fieldName element).invoked
        = [.innerText element fieldName]
    ∧ lookupKey (c.setInnerText fieldName element).comp.updaters fieldName
        = some (.innerText element fieldName)
    ∧ lookupKey (c.setInnerText fieldName element).comp.updaters g
        = lookupKey c.updaters g
    ∧ (c.setAttribute attributeName fieldName element).invoked
        = [.attr element attributeName fieldName]
    ∧ lookupKey (c.setAttribute attributeName fieldName
          element).comp.updaters fieldName
        = some (.attr element attributeName fieldName)
    ∧ lookupKey (c.setAttribute attributeName fieldName
          element).comp.updaters g
        = lookupKey c.updaters g
    ∧ (c.setCSSStyle styleName fieldName element).invoked
        = [.cssStyle element styleName fieldName]
    ∧ lookupKey (c.setCSSStyle styleName fieldName
          element).comp.updaters fieldName
        = some (.cssStyle element styleName fieldName)
    ∧ lookupKey (c.setCSSStyle styleName fieldName
          element).comp.updaters g
        = lookupKey c.updaters g := by
  refine ⟨rfl, ?_, ?_, rfl, ?_, ?_, rfl, ?_, ?_⟩
  · exact lookupKey_mapSet_self c.updaters fieldName _
  · exact lookupKey_mapSet_ne c.updaters fieldName _ g hg
  · exact lookupKey_mapSet_self c.updaters fieldName _
  · exact lookupKey_mapSet_ne c.updaters fieldName _ g hg
  · exact lookupKey_mapSet_self c.updaters fieldName _
  · exact lookupKey_mapSet_ne c.updaters fieldName _ g hg

/-- Witness for C8 on a concrete component with a `text` data source and
an empty updater map, binding the field `text` and checking the unrelated
field name `other`. -/
theorem binding_methods_invoke_once_and_register_witness :
    (Comp.setInnerText ⟨0, 7, true, [("text", .str "hi")], [], []⟩
        "text" 7).invoked = [.innerText 7 "text"]
    ∧ lookupKey (Comp.setInnerText ⟨0, 7, true, [("text", .str "hi")],
          [], []⟩ "text" 7).comp.updaters "text"
        = some (.innerText 7 "text")
    ∧ lookupKey (Comp.setInnerText ⟨0, 7, true, [("text", .str "hi")],
          [], []⟩ "text" 7).comp.updaters "other"
        = none
    ∧ (Comp.setAttribute ⟨0, 7, true, [("text", .str "hi")], [], []⟩
        "href" "text" 7).invoked = [.attr 7 "href" "text"]
    ∧ lookupKey (Comp.setAttribute ⟨0, 7, true, [("text", .str "hi")],
          [], []⟩ "href" "text" 7).comp.updaters "text"
        = some (.attr 7 "href" "text")
    ∧ lookupKey (Comp.setAttribute ⟨0, 7, true, [("text", .str "hi")],
          [], []⟩ "href" "text" 7).comp.updaters "other"
        = none
    ∧ (Comp.setCSSStyle ⟨0, 7, true, [("text", .str "hi")], [], []⟩
        "color" "text" 7).invoked = [.cssStyle 7 "color" "text"]
    ∧ lookupKey (Comp.setCSSStyle ⟨0, 7, true, [("text", .str "hi")],
          [], []⟩ "color" "text" 7).comp.updaters "text"
        = some (.cssStyle 7 "color" "text")
    ∧ lookupKey (Comp.setCSSStyle ⟨0, 7, true, [("text", .str "hi")],
          [], []⟩ "color" "text" 7).comp.updaters "other"
        = none :=
  binding_methods_invoke_once_and_register
    ⟨0, 7, true, [("text", .str "hi")], [], []⟩
    "text" "href" "color" 7 "other" (by decide)

/-- Claim C9: each of the three factory-built updater closures, invoked
while the component has no data-source function for its field, performs
no render-surface call; the closure body is a total function here, so
nothing is raised either. -/
theorem updater_factories_skip_missing_data_source
    (dataSources : List (String × JSVal)) (element : Nat)
    (attributeName styleName fieldName : String)
    (h : lookupKey dataSources fieldName = none) :
    runUpdater dataSources (.innerText element fieldName) = []
    ∧ runUpdater dataSources (.attr element attributeName fieldName) = []
    ∧ runUpdater dataSources (.cssStyle element styleName fieldName)
        = [] := by
  refine ⟨?_, ?_, ?_⟩ <;> simp [runUpdater, h]

/-- Witness for C9: a component holding only a `text` data source runs
all three updater closures for the unconfigured field `missing` without
any render-surface effect. -/
theorem updater_factories_skip_missing_data_source_witness :
    runUpdater [("text", JSVal.str "hi")] (.innerText 7 "missing") = []
    ∧ runUpdater [("text", JSVal.str "hi")] (.attr 7 "href" "missing") = []
    ∧ runUpdater [("text", JSVal.str "hi")] (.cssStyle 7 "color" "missing")
        = [] :=
  updater_factories_skip_missing_data_source [("text", JSVal.str "hi")]
    7 "href" "color" "missing" (by decide)

/-- Claim C10 (code-bug evidence): `delegate` keeps an entry declaring
`a` while also mapping the absent source `b`, so the delegated entry
carries a field `y` whose dependency value is `undefined`; the claim says
the notification pass skips such a field (and any dependent field without
a registered updater) silently on every write — instead, writing `value`
to a store subscribed with that delegated descriptor throws a
`TypeError`, because the buggy pass calls `.includes` on the entry object
before any per-field guard can apply (see the C1 evidence). -/
theorem delegated_undefined_dep_write_raises :
    delegate [⟨0, [("a", some ["value"])]⟩] [⟨"a", "x"⟩, ⟨"b", "y"⟩]
      = [⟨0, [("x", some ["value"]), ("y", none)]⟩]
    ∧ setTrap
        (registerSubscriber (rememberStore [("value", ⟨.num 0, true⟩)]) 0
          [⟨0, [("x", some ["value"]), ("y", none)]⟩])
        [(0, ["x"])] "value" (.num 1)
      = .thrown .typeError
          ⟨[("value", ⟨.num 1, true⟩)],
           [(0, [⟨0, [("x", some ["value"]), ("y", none)]⟩])]⟩
          [] := by
  exact ⟨rfl, rfl⟩

end Speactive
